import Mathlib

/-!
Verification of the `idna_adapter` crate (`src/lib.rs`).

The crate abstracts over a Unicode back end for the `idna` crate: it wraps two
enumerated Unicode properties (Joining_Type from the `unicode_joining_type`
crate and Bidi_Class from the `unicode_bidi` crate), encodes them as `u32`
bitmasks, exposes a set of precomputed rule-group masks, and chains an external
mapping stage (`idna_mapping::Mapper`, parameterized by a validating flag) into
an external canonical-composition stage (`unicode_normalization`'s `nfc`).

Machine integers are modelled as `Nat` with explicit `% 2^32` where overflow
could matter; since every shift amount is an enum discriminant below 32, the
values never reach `2^32` and the `Nat` model agrees with `u32`.
-/

namespace IdnaAdapter

/-- The `unicode_joining_type::JoiningType` enum (external crate), with the
variants in declaration order; `jt as u32` in Rust is the declaration-order
discriminant. -/
inductive JT where
  | Causing
  | DualJoining
  | LeftJoining
  | NonJoining
  | RightJoining
  | Transparent
  deriving DecidableEq, Repr, Fintype

/-- The Rust `as u32` cast on `unicode_joining_type::JoiningType`:
the default discriminant, i.e. the declaration-order ordinal. -/
def JT.ord : JT → Nat
  | .Causing => 0
  | .DualJoining => 1
  | .LeftJoining => 2
  | .NonJoining => 3
  | .RightJoining => 4
  | .Transparent => 5

/-- The `unicode_bidi::BidiClass` enum (external crate), with the variants in
declaration order; `bc as u32` in Rust is the declaration-order discriminant. -/
inductive BC where
  | AL
  | AN
  | B
  | BN
  | CS
  | EN
  | ES
  | ET
  | FSI
  | L
  | LRE
  | LRI
  | LRO
  | NSM
  | ON
  | PDF
  | PDI
  | R
  | RLE
  | RLI
  | RLO
  | S
  | WS
  deriving DecidableEq, Repr, Fintype

/-- The Rust `as u32` cast on `unicode_bidi::BidiClass`:
the default discriminant, i.e. the declaration-order ordinal. -/
def BC.ord : BC → Nat
  | .AL => 0
  | .AN => 1
  | .B => 2
  | .BN => 3
  | .CS => 4
  | .EN => 5
  | .ES => 6
  | .ET => 7
  | .FSI => 8
  | .L => 9
  | .LRE => 10
  | .LRI => 11
  | .LRO => 12
  | .NSM => 13
  | .ON => 14
  | .PDF => 15
  | .PDI => 16
  | .R => 17
  | .RLE => 18
  | .RLI => 19
  | .RLO => 20
  | .S => 21
  | .WS => 22

/-- `const fn joining_type_to_mask(jt: JoiningType) -> u32 { 1u32 << (jt as u32) }` -/
def joining_type_to_mask (jt : JT) : Nat :=
  1 <<< jt.ord

/-- `const fn bidi_class_to_mask(bc: BidiClass) -> u32 { 1u32 << (bc as u32) }` -/
def bidi_class_to_mask (bc : BC) : Nat :=
  1 <<< bc.ord

/-- `pub struct JoiningTypeMask(u32)` -/
structure JoiningTypeMask where
  val : Nat
  deriving DecidableEq, Repr

/-- `JoiningTypeMask::intersects`: `self.0 & other.0 != 0`. -/
def JoiningTypeMask.intersects (a b : JoiningTypeMask) : Bool :=
  a.val &&& b.val != 0

/-- `pub struct BidiClassMask(u32)` -/
structure BidiClassMask where
  val : Nat
  deriving DecidableEq, Repr

/-- `BidiClassMask::intersects`: `self.0 & other.0 != 0`. -/
def BidiClassMask.intersects (a b : BidiClassMask) : Bool :=
  a.val &&& b.val != 0

/-- `pub struct JoiningType(unicode_joining_type::JoiningType)` -/
structure JoiningType where
  inner : JT
  deriving DecidableEq, Repr

/-- `JoiningType::to_mask`. -/
def JoiningType.to_mask (j : JoiningType) : JoiningTypeMask :=
  ⟨joining_type_to_mask j.inner⟩

/-- `JoiningType::is_transparent`. -/
def JoiningType.is_transparent (j : JoiningType) : Bool :=
  j.inner = JT.Transparent

/-- `pub struct BidiClass(unicode_bidi::BidiClass)` -/
structure BidiClass where
  inner : BC
  deriving DecidableEq, Repr

/-- `BidiClass::to_mask`. -/
def BidiClass.to_mask (b : BidiClass) : BidiClassMask :=
  ⟨bidi_class_to_mask b.inner⟩

/-- `BidiClass::is_ltr`. -/
def BidiClass.is_ltr (b : BidiClass) : Bool :=
  b.inner = BC.L

/-- `BidiClass.is_nonspacing_mark`. -/
def BidiClass.is_nonspacing_mark (b : BidiClass) : Bool :=
  b.inner = BC.NSM

/-- `BidiClass.is_european_number`. -/
def BidiClass.is_european_number (b : BidiClass) : Bool :=
  b.inner = BC.EN

/-- `BidiClass.is_arabic_number`. -/
def BidiClass.is_arabic_number (b : BidiClass) : Bool :=
  b.inner = BC.AN

/-- `LEFT_OR_DUAL_JOINING_MASK`. -/
def LEFT_OR_DUAL_JOINING_MASK : JoiningTypeMask :=
  ⟨joining_type_to_mask JT.LeftJoining ||| joining_type_to_mask JT.DualJoining⟩

/-- `RIGHT_OR_DUAL_JOINING_MASK`. -/
def RIGHT_OR_DUAL_JOINING_MASK : JoiningTypeMask :=
  ⟨joining_type_to_mask JT.RightJoining ||| joining_type_to_mask JT.DualJoining⟩

/-- `RTL_MASK`. -/
def RTL_MASK : BidiClassMask :=
  ⟨bidi_class_to_mask BC.R ||| bidi_class_to_mask BC.AL ||| bidi_class_to_mask BC.AN⟩

/-- `FIRST_BC_MASK`. -/
def FIRST_BC_MASK : BidiClassMask :=
  ⟨bidi_class_to_mask BC.L ||| bidi_class_to_mask BC.R ||| bidi_class_to_mask BC.AL⟩

/-- `LAST_LTR_MASK`. -/
def LAST_LTR_MASK : BidiClassMask :=
  ⟨bidi_class_to_mask BC.L ||| bidi_class_to_mask BC.EN⟩

/-- `LAST_RTL_MASK`. -/
def LAST_RTL_MASK : BidiClassMask :=
  ⟨bidi_class_to_mask BC.R ||| bidi_class_to_mask BC.AL |||
    bidi_class_to_mask BC.EN ||| bidi_class_to_mask BC.AN⟩

/-- `MIDDLE_LTR_MASK`. -/
def MIDDLE_LTR_MASK : BidiClassMask :=
  ⟨bidi_class_to_mask BC.L ||| bidi_class_to_mask BC.EN |||
    bidi_class_to_mask BC.ES ||| bidi_class_to_mask BC.CS |||
    bidi_class_to_mask BC.ET ||| bidi_class_to_mask BC.ON |||
    bidi_class_to_mask BC.BN ||| bidi_class_to_mask BC.NSM⟩

/-- `MIDDLE_RTL_MASK`. -/
def MIDDLE_RTL_MASK : BidiClassMask :=
  ⟨bidi_class_to_mask BC.R ||| bidi_class_to_mask BC.AL |||
    bidi_class_to_mask BC.AN ||| bidi_class_to_mask BC.EN |||
    bidi_class_to_mask BC.ES ||| bidi_class_to_mask BC.CS |||
    bidi_class_to_mask BC.ET ||| bidi_class_to_mask BC.ON |||
    bidi_class_to_mask BC.BN ||| bidi_class_to_mask BC.NSM⟩

/-- A mask built as the bitwise OR of the single-value masks of a list of
Joining_Type variants — the construction the source uses for its named
constants ("Masks combine via bitwise OR at construction time only"). -/
def joiningMaskOfList (l : List JT) : JoiningTypeMask :=
  ⟨l.foldr (fun jt acc => joining_type_to_mask jt ||| acc) 0⟩

/-- A mask built as the bitwise OR of the single-value masks of a list of
Bidi_Class variants. -/
def bidiMaskOfList (l : List BC) : BidiClassMask :=
  ⟨l.foldr (fun bc acc => bidi_class_to_mask bc ||| acc) 0⟩

/-- The external Unicode back end the adapter delegates to. The spec treats
the providers as "fixed black boxes, not reimplemented here": a per-code-point
Joining_Type lookup (`unicode_joining_type::get_joining_type`), a Bidi_Class
lookup (`unicode_bidi::bidi_class`), a canonical-combining-class lookup and a
combining-mark predicate (`unicode_normalization::char`), a mapping stage
taking (sequence, validating flag) (`idna_mapping::Mapper::new`), and a
canonical-composition stage (`.nfc()`), all total. Sequences are modelled as
finite lists of characters. -/
structure UnicodeBackEnd where
  get_joining_type : Char → JT
  bidi_class_of : Char → BC
  canonical_combining_class : Char → Nat
  is_combining_mark : Char → Bool
  mapper : List Char → Bool → List Char
  nfc : List Char → List Char

/-- `Adapter::is_virama`: `canonical_combining_class(c) == 9`. The Rust
`Adapter` is a zero-sized token proving a back end is available; here the back
end is the explicit first argument. -/
def Adapter.is_virama (u : UnicodeBackEnd) (c : Char) : Bool :=
  u.canonical_combining_class c == 9

/-- `Adapter::is_mark`: delegation to `unicode_normalization::char::is_combining_mark`. -/
def Adapter.is_mark (u : UnicodeBackEnd) (c : Char) : Bool :=
  u.is_combining_mark c

/-- `Adapter::bidi_class`: `BidiClass(unicode_bidi::bidi_class(c))`. -/
def Adapter.bidi_class (u : UnicodeBackEnd) (c : Char) : BidiClass :=
  ⟨u.bidi_class_of c⟩

/-- `Adapter::joining_type`: `JoiningType(unicode_joining_type::get_joining_type(c))`. -/
def Adapter.joining_type (u : UnicodeBackEnd) (c : Char) : JoiningType :=
  ⟨u.get_joining_type c⟩

/-- `Adapter::map_normalize`: `idna_mapping::Mapper::new(iter, false).nfc()`. -/
def Adapter.map_normalize (u : UnicodeBackEnd) (s : List Char) : List Char :=
  u.nfc (u.mapper s false)

/-- `Adapter::normalize_validate`: `idna_mapping::Mapper::new(iter, true).nfc()`. -/
def Adapter.normalize_validate (u : UnicodeBackEnd) (s : List Char) : List Char :=
  u.nfc (u.mapper s true)

/-- Modelled from the spec: the "single parameterized entry point into the
external mapping stage (a mode flag)" chained into canonical composition —
the shape the spec prescribes for both sequence operations. -/
def mappingPipeline (u : UnicodeBackEnd) (validating : Bool) (s : List Char) :
    List Char :=
  u.nfc (u.mapper s validating)

/-- A sequence "already in fully composed, canonical form": a fixed point of
the canonical-composition stage. -/
def inCanonicalForm (u : UnicodeBackEnd) (s : List Char) : Prop :=
  u.nfc s = s

/-- U+FF21 FULLWIDTH LATIN CAPITAL LETTER A, the code point of the spec's
mapping scenario. -/
def fullwidthA : Char := Char.ofNat 0xFF21

/-- Modelled from the spec: the external mapping stage (`idna_mapping`, an
external collaborator whose code is not under `src/`) performs "case folding,
width folding, disallowed-character handling". The spec's scenario fixes its
behavior on one code point: the fullwidth Latin A maps (case-folded and
width-mapped) to plain `a`. This fragment records exactly that mapping and
leaves every other character unchanged; none of the characters appearing in
the scenarios below is disallowed, so the validating flag makes no difference
on them. -/
def scenarioMapper (s : List Char) (_validating : Bool) : List Char :=
  s.map fun c => if c = fullwidthA then 'a' else c

/-- Modelled from the spec: the external canonical-composition stage "merges a
base character and following combining marks into a single precomposed
character where a standard mapping exists". The scenario sequences below
contain no combining marks at all, so on them composition has nothing to merge
and returns the sequence unchanged; this fragment is that restriction. -/
def scenarioNfc (s : List Char) : List Char := s

/-- A concrete back end combining the spec-modelled mapping and composition
fragments; the per-code-point property lookups are irrelevant to the sequence
pipeline and are filled with fixed values. -/
def scenarioBackEnd : UnicodeBackEnd where
  get_joining_type := fun _ => JT.NonJoining
  bidi_class_of := fun _ => BC.L
  canonical_combining_class := fun _ => 0
  is_combining_mark := fun _ => false
  mapper := scenarioMapper
  nfc := scenarioNfc

/-! ## Helper lemmas -/

lemma ne_zero_iff_exists_testBit (n : Nat) :
    n ≠ 0 ↔ ∃ i, n.testBit i = true := by
  constructor
  · exact Nat.ne_zero_implies_bit_true
  · rintro ⟨i, hi⟩ rfl
    simp at hi

lemma land_ne_zero_iff (m n : Nat) :
    m &&& n ≠ 0 ↔ ∃ i, m.testBit i = true ∧ n.testBit i = true := by
  rw [ne_zero_iff_exists_testBit]
  simp [Nat.testBit_land]

lemma testBit_one_shiftLeft (k i : Nat) :
    (1 <<< k).testBit i = decide (k = i) := by
  rw [Nat.one_shiftLeft, Nat.testBit_two_pow]

lemma land_self_nat (n : Nat) : n &&& n = n :=
  Nat.eq_of_testBit_eq fun i => by rw [Nat.testBit_land, Bool.and_self]

lemma JT_ord_inj : ∀ a b : JT, a.ord = b.ord → a = b := by decide

lemma BC_ord_inj : ∀ a b : BC, a.ord = b.ord → a = b := by decide

lemma testBit_joiningMaskOfList (l : List JT) (i : Nat) :
    (joiningMaskOfList l).val.testBit i = l.any fun jt => decide (jt.ord = i) := by
  induction l with
  | nil => simp [joiningMaskOfList]
  | cons x xs ih =>
      simp only [joiningMaskOfList, List.foldr_cons, Nat.testBit_lor, List.any_cons]
      rw [show (List.foldr (fun jt acc => joining_type_to_mask jt ||| acc) 0 xs)
            = (joiningMaskOfList xs).val from rfl, ih,
        joining_type_to_mask, testBit_one_shiftLeft]

lemma testBit_bidiMaskOfList (l : List BC) (i : Nat) :
    (bidiMaskOfList l).val.testBit i = l.any fun bc => decide (bc.ord = i) := by
  induction l with
  | nil => simp [bidiMaskOfList]
  | cons x xs ih =>
      simp only [bidiMaskOfList, List.foldr_cons, Nat.testBit_lor, List.any_cons]
      rw [show (List.foldr (fun bc acc => bidi_class_to_mask bc ||| acc) 0 xs)
            = (bidiMaskOfList xs).val from rfl, ih,
        bidi_class_to_mask, testBit_one_shiftLeft]

lemma scenarioMapper_idem (s : List Char) (v w : Bool) :
    scenarioMapper (scenarioMapper s v) w = scenarioMapper s v := by
  induction s with
  | nil => rfl
  | cons c cs ih =>
      simp only [scenarioMapper, List.map_cons, List.map_map] at *
      refine congrArg₂ _ ?_ ih
      by_cases h : c = fullwidthA <;> simp [h]

/-! ## Claim theorems -/

/-- Claim C1: for mask values of either mask type (`JoiningTypeMask` or
`BidiClassMask`), `intersects` returns `true` iff the two masks share at least
one set bit, i.e. iff the bitwise AND of their underlying values is nonzero. -/
theorem intersects_iff_shared_bit (a b : JoiningTypeMask) (c d : BidiClassMask) :
    (a.intersects b = true ↔ ∃ i, a.val.testBit i = true ∧ b.val.testBit i = true) ∧
    (a.intersects b = true ↔ a.val &&& b.val ≠ 0) ∧
    (c.intersects d = true ↔ ∃ i, c.val.testBit i = true ∧ d.val.testBit i = true) ∧
    (c.intersects d = true ↔ c.val &&& d.val ≠ 0) := by
  refine ⟨?_, ?_, ?_, ?_⟩ <;>
    simp [JoiningTypeMask.intersects, BidiClassMask.intersects, bne_iff_ne,
      land_ne_zero_iff]

/-- Claim C2: `map_normalize` is the external mapping stage with the
validating flag `false` followed by canonical composition, and
`normalize_validate` is the same single parameterized pipeline with the flag
`true`; the two operations differ only in the value of that flag. -/
theorem sequence_ops_single_entry_point (u : UnicodeBackEnd) (s : List Char) :
    Adapter.map_normalize u s = mappingPipeline u false s ∧
    Adapter.normalize_validate u s = mappingPipeline u true s :=
  ⟨rfl, rfl⟩

/-- Claim C3: each precomputed named mask constant equals exactly the bitwise
OR of the single-value masks of its listed variants, and for every variant of
the corresponding enumeration the variant's bit is set in the constant iff the
variant is one of the listed ones (so no other variant's bit is set). -/
theorem named_mask_constants_exact :
    (LEFT_OR_DUAL_JOINING_MASK.val
        = (JoiningType.to_mask ⟨JT.LeftJoining⟩).val
            ||| (JoiningType.to_mask ⟨JT.DualJoining⟩).val
      ∧ ∀ v : JT, LEFT_OR_DUAL_JOINING_MASK.val.testBit v.ord
          = decide (v = JT.LeftJoining ∨ v = JT.DualJoining)) ∧
    (RIGHT_OR_DUAL_JOINING_MASK.val
        = (JoiningType.to_mask ⟨JT.RightJoining⟩).val
            ||| (JoiningType.to_mask ⟨JT.DualJoining⟩).val
      ∧ ∀ v : JT, RIGHT_OR_DUAL_JOINING_MASK.val.testBit v.ord
          = decide (v = JT.RightJoining ∨ v = JT.DualJoining)) ∧
    (RTL_MASK.val
        = (BidiClass.to_mask ⟨BC.R⟩).val ||| (BidiClass.to_mask ⟨BC.AL⟩).val
            ||| (BidiClass.to_mask ⟨BC.AN⟩).val
      ∧ ∀ v : BC, RTL_MASK.val.testBit v.ord
          = decide (v = BC.R ∨ v = BC.AL ∨ v = BC.AN)) ∧
    (FIRST_BC_MASK.val
        = (BidiClass.to_mask ⟨BC.L⟩).val ||| (BidiClass.to_mask ⟨BC.R⟩).val
            ||| (BidiClass.to_mask ⟨BC.AL⟩).val
      ∧ ∀ v : BC, FIRST_BC_MASK.val.testBit v.ord
          = decide (v = BC.L ∨ v = BC.R ∨ v = BC.AL)) ∧
    (LAST_LTR_MASK.val
        = (BidiClass.to_mask ⟨BC.L⟩).val ||| (BidiClass.to_mask ⟨BC.EN⟩).val
      ∧ ∀ v : BC, LAST_LTR_MASK.val.testBit v.ord
          = decide (v = BC.L ∨ v = BC.EN)) ∧
    (LAST_RTL_MASK.val
        = (BidiClass.to_mask ⟨BC.R⟩).val ||| (BidiClass.to_mask ⟨BC.AL⟩).val
            ||| (BidiClass.to_mask ⟨BC.EN⟩).val ||| (BidiClass.to_mask ⟨BC.AN⟩).val
      ∧ ∀ v : BC, LAST_RTL_MASK.val.testBit v.ord
          = decide (v = BC.R ∨ v = BC.AL ∨ v = BC.EN ∨ v = BC.AN)) ∧
    (MIDDLE_LTR_MASK.val
        = (BidiClass.to_mask ⟨BC.L⟩).val ||| (BidiClass.to_mask ⟨BC.EN⟩).val
            ||| (BidiClass.to_mask ⟨BC.ES⟩).val ||| (BidiClass.to_mask ⟨BC.CS⟩).val
            ||| (BidiClass.to_mask ⟨BC.ET⟩).val ||| (BidiClass.to_mask ⟨BC.ON⟩).val
            ||| (BidiClass.to_mask ⟨BC.BN⟩).val ||| (BidiClass.to_mask ⟨BC.NSM⟩).val
      ∧ ∀ v : BC, MIDDLE_LTR_MASK.val.testBit v.ord
          = decide (v = BC.L ∨ v = BC.EN ∨ v = BC.ES ∨ v = BC.CS ∨ v = BC.ET
              ∨ v = BC.ON ∨ v = BC.BN ∨ v = BC.NSM)) ∧
    (MIDDLE_RTL_MASK.val
        = (BidiClass.to_mask ⟨BC.R⟩).val ||| (BidiClass.to_mask ⟨BC.AL⟩).val
            ||| (BidiClass.to_mask ⟨BC.AN⟩).val ||| (BidiClass.to_mask ⟨BC.EN⟩).val
            ||| (BidiClass.to_mask ⟨BC.ES⟩).val ||| (BidiClass.to_mask ⟨BC.CS⟩).val
            ||| (BidiClass.to_mask ⟨BC.ET⟩).val ||| (BidiClass.to_mask ⟨BC.ON⟩).val
            ||| (BidiClass.to_mask ⟨BC.BN⟩).val ||| (BidiClass.to_mask ⟨BC.NSM⟩).val
      ∧ ∀ v : BC, MIDDLE_RTL_MASK.val.testBit v.ord
          = decide (v = BC.R ∨ v = BC.AL ∨ v = BC.AN ∨ v = BC.EN ∨ v = BC.ES
              ∨ v = BC.CS ∨ v = BC.ET ∨ v = BC.ON ∨ v = BC.BN ∨ v = BC.NSM)) := by
  decide

/-- Claim C4: `is_virama` returns `true` iff the canonical combining class of
the code point is exactly 9, and is total over all code points (it is a total
function by construction). -/
theorem is_virama_iff_ccc_nine (u : UnicodeBackEnd) (c : Char) :
    Adapter.is_virama u c = true ↔ u.canonical_combining_class c = 9 := by
  simp [Adapter.is_virama]

/-- Claim C5: on any input sequence the validating mapping mode does not
reject, `normalize_validate` produces exactly the output of `map_normalize`.
The rejection semantics live in the external mapping stage (`idna_mapping`,
not under `src/`); modelled from the spec, "not rejected" means the validating
run of the mapping stage produced the same output as the non-validating run,
since rejection is the only behavioral difference the spec allows validating
mode. -/
theorem normalize_validate_agrees_when_not_rejected
    (u : UnicodeBackEnd) (rejects : List Char → Bool)
    (hmode : ∀ s, rejects s = false → u.mapper s true = u.mapper s false)
    (s : List Char) (hs : rejects s = false) :
    Adapter.normalize_validate u s = Adapter.map_normalize u s := by
  unfold Adapter.normalize_validate Adapter.map_normalize
  rw [hmode s hs]

/-- Witness for C5 at the concrete scenario back end and input `[fullwidthA]`,
with a rejection predicate that rejects nothing. -/
theorem normalize_validate_agrees_witness :
    Adapter.normalize_validate scenarioBackEnd [fullwidthA]
      = Adapter.map_normalize scenarioBackEnd [fullwidthA] :=
  normalize_validate_agrees_when_not_rejected scenarioBackEnd (fun _ => false)
    (fun _ _ => rfl) [fullwidthA] rfl

/-- Claim C6: `map_normalize` is idempotent. The property is decided by the
two external stages (`idna_mapping` and the composition stage, neither under
`src/`); modelled from the spec, the external stages are stable on the
pipeline's own output: canonical composition is idempotent, and a
mapped-then-composed sequence is a fixed point of the mapping stage. Under
those contracts the composite pipeline is idempotent. -/
theorem map_normalize_idempotent
    (u : UnicodeBackEnd)
    (hnfc : ∀ s, u.nfc (u.nfc s) = u.nfc s)
    (hmap : ∀ s, u.mapper (u.nfc (u.mapper s false)) false = u.nfc (u.mapper s false))
    (s : List Char) :
    Adapter.map_normalize u (Adapter.map_normalize u s) = Adapter.map_normalize u s := by
  unfold Adapter.map_normalize
  rw [hmap, hnfc]

/-- Witness for C6 at the concrete scenario back end and input `[fullwidthA]`. -/
theorem map_normalize_idempotent_witness :
    Adapter.map_normalize scenarioBackEnd (Adapter.map_normalize scenarioBackEnd [fullwidthA])
      = Adapter.map_normalize scenarioBackEnd [fullwidthA] :=
  map_normalize_idempotent scenarioBackEnd (fun _ => rfl)
    (fun s => scenarioMapper_idem s false false) [fullwidthA]

/-- Counterexample to claim C7 as stated: the sequence `[fullwidthA]` is in
fully composed canonical form (a fixed point of the composition stage: U+FF21
has no canonical decomposition), yet `map_normalize` does not return it
unchanged — per the spec's own scenario, the mapping stage case-folds and
width-maps it to `['a']`. -/
theorem map_normalize_not_roundtrip_on_canonical :
    inCanonicalForm scenarioBackEnd [fullwidthA] ∧
    Adapter.map_normalize scenarioBackEnd [fullwidthA] ≠ [fullwidthA] :=
  ⟨rfl, by decide⟩

/-- Claim C7 amended: for every input sequence that is in fully composed
canonical form and additionally fully mapped (a fixed point of the
non-validating mapping stage), `map_normalize` returns the input unchanged. -/
theorem map_normalize_roundtrip_on_mapped_canonical
    (u : UnicodeBackEnd) (s : List Char)
    (hmapped : u.mapper s false = s) (hcanon : inCanonicalForm u s) :
    Adapter.map_normalize u s = s := by
  unfold Adapter.map_normalize
  rw [hmapped]
  exact hcanon

/-- Witness for the amended C7 at the concrete scenario back end: `['a']` is
fully mapped and canonical, and round-trips. -/
theorem map_normalize_roundtrip_witness :
    Adapter.map_normalize scenarioBackEnd (['a'] : List Char) = ['a'] :=
  map_normalize_roundtrip_on_mapped_canonical scenarioBackEnd ['a'] (by decide) rfl

/-- Claim C8: for every code point and every total Bidi_Class data source, the
mask of the code point's bidi class intersects itself. -/
theorem bidi_class_mask_self_intersects (u : UnicodeBackEnd) (c : Char) :
    ((Adapter.bidi_class u c).to_mask).intersects ((Adapter.bidi_class u c).to_mask)
      = true := by
  simp only [Adapter.bidi_class, BidiClass.to_mask, BidiClassMask.intersects,
    bidi_class_to_mask, land_self_nat, bne_iff_ne, ne_eq, Nat.one_shiftLeft]
  positivity

/-- Claim C9: every single-value mask has exactly one bit set; single-value
masks of distinct variants of the same property never intersect; and a
single-value mask intersects a mask built as the OR of a list of variants iff
the value is one of the variants in the list. -/
theorem single_value_mask_orthogonality :
    (∀ v : JoiningType, ∃! i, v.to_mask.val.testBit i = true) ∧
    (∀ v w : JoiningType, v ≠ w → v.to_mask.intersects w.to_mask = false) ∧
    (∀ (l : List JT) (v : JoiningType),
        v.to_mask.intersects (joiningMaskOfList l) = true ↔ v.inner ∈ l) ∧
    (∀ v : BidiClass, ∃! i, v.to_mask.val.testBit i = true) ∧
    (∀ v w : BidiClass, v ≠ w → v.to_mask.intersects w.to_mask = false) ∧
    (∀ (l : List BC) (v : BidiClass),
        v.to_mask.intersects (bidiMaskOfList l) = true ↔ v.inner ∈ l) := by
  refine ⟨?_, ?_, ?_, ?_, ?_, ?_⟩
  · rintro ⟨a⟩
    refine ⟨a.ord, ?_, fun y hy => ?_⟩
    · simp [JoiningType.to_mask, joining_type_to_mask, testBit_one_shiftLeft]
    · simp only [JoiningType.to_mask, joining_type_to_mask,
        testBit_one_shiftLeft, decide_eq_true_eq] at hy
      exact hy.symm
  · rintro ⟨a⟩ ⟨b⟩ hne
    have hord : a.ord ≠ b.ord := fun h => hne (by rw [JT_ord_inj a b h])
    have h0 : (1 <<< a.ord) &&& (1 <<< b.ord) = 0 :=
      Nat.eq_of_testBit_eq fun i => by
        rw [Nat.testBit_land, testBit_one_shiftLeft, testBit_one_shiftLeft,
          Nat.zero_testBit]
        rcases eq_or_ne a.ord i with rfl | h
        · simp [Ne.symm hord]
        · simp [h]
    simp [JoiningType.to_mask, JoiningTypeMask.intersects, joining_type_to_mask, h0]
  · rintro l ⟨a⟩
    simp only [JoiningType.to_mask, JoiningTypeMask.intersects,
      joining_type_to_mask, bne_iff_ne]
    rw [land_ne_zero_iff]
    constructor
    · rintro ⟨i, hi1, hi2⟩
      rw [testBit_one_shiftLeft, decide_eq_true_eq] at hi1
      rw [testBit_joiningMaskOfList, List.any_eq_true] at hi2
      obtain ⟨jt, hjt, hord⟩ := hi2
      rw [decide_eq_true_eq] at hord
      have hja : jt = a := JT_ord_inj jt a (by rw [hord, hi1])
      exact hja ▸ hjt
    · intro hmem
      refine ⟨a.ord, by simp [testBit_one_shiftLeft], ?_⟩
      rw [testBit_joiningMaskOfList, List.any_eq_true]
      exact ⟨a, hmem, by simp⟩
  · rintro ⟨a⟩
    refine ⟨a.ord, ?_, fun y hy => ?_⟩
    · simp [BidiClass.to_mask, bidi_class_to_mask, testBit_one_shiftLeft]
    · simp only [BidiClass.to_mask, bidi_class_to_mask,
        testBit_one_shiftLeft, decide_eq_true_eq] at hy
      exact hy.symm
  · rintro ⟨a⟩ ⟨b⟩ hne
    have hord : a.ord ≠ b.ord := fun h => hne (by rw [BC_ord_inj a b h])
    have h0 : (1 <<< a.ord) &&& (1 <<< b.ord) = 0 :=
      Nat.eq_of_testBit_eq fun i => by
        rw [Nat.testBit_land, testBit_one_shiftLeft, testBit_one_shiftLeft,
          Nat.zero_testBit]
        rcases eq_or_ne a.ord i with rfl | h
        · simp [Ne.symm hord]
        · simp [h]
    simp [BidiClass.to_mask, BidiClassMask.intersects, bidi_class_to_mask, h0]
  · rintro l ⟨a⟩
    simp only [BidiClass.to_mask, BidiClassMask.intersects,
      bidi_class_to_mask, bne_iff_ne]
    rw [land_ne_zero_iff]
    constructor
    · rintro ⟨i, hi1, hi2⟩
      rw [testBit_one_shiftLeft, decide_eq_true_eq] at hi1
      rw [testBit_bidiMaskOfList, List.any_eq_true] at hi2
      obtain ⟨bc, hbc, hord⟩ := hi2
      rw [decide_eq_true_eq] at hord
      have hba : bc = a := BC_ord_inj bc a (by rw [hord, hi1])
      exact hba ▸ hbc
    · intro hmem
      refine ⟨a.ord, by simp [testBit_one_shiftLeft], ?_⟩
      rw [testBit_bidiMaskOfList, List.any_eq_true]
      exact ⟨a, hmem, by simp⟩

/-- Witness for C9: distinct Joining_Type variants give disjoint masks, and
the Arabic-Letter single mask intersects the mask built from R, AL, AN. -/
theorem single_value_mask_orthogonality_witness :
    ((⟨JT.LeftJoining⟩ : JoiningType).to_mask.intersects
      (⟨JT.RightJoining⟩ : JoiningType).to_mask = false) ∧
    ((⟨BC.AL⟩ : BidiClass).to_mask.intersects
      (bidiMaskOfList [BC.R, BC.AL, BC.AN]) = true) :=
  ⟨single_value_mask_orthogonality.2.1 ⟨JT.LeftJoining⟩ ⟨JT.RightJoining⟩ (by decide),
   (single_value_mask_orthogonality.2.2.2.2.2 [BC.R, BC.AL, BC.AN] ⟨BC.AL⟩).mpr
     (by decide)⟩

/-- Claim C10: every variant's ordinal is below 32, so the `1u32 << ordinal`
shift in the variant-to-mask conversions never overflows (the value is its own
residue mod 2^32) and never produces zero; the shift-error branch is
unreachable. -/
theorem variant_shift_bounded :
    (∀ jt : JT, jt.ord < 32
      ∧ joining_type_to_mask jt % 2 ^ 32 = joining_type_to_mask jt
      ∧ joining_type_to_mask jt ≠ 0) ∧
    (∀ bc : BC, bc.ord < 32
      ∧ bidi_class_to_mask bc % 2 ^ 32 = bidi_class_to_mask bc
      ∧ bidi_class_to_mask bc ≠ 0) := by
  decide

end IdnaAdapter
